import Mathlib

/-!
Verification of the mfe-store store engine (src/store.ts) against its
specification.  The engine orchestrates an in-memory cache (a JS Map), a
persistent backend (IndexedDB), a subscription registry (Map of Sets of
listeners), a local event bus (CustomEvent dispatch) and a broadcast
transport (BroadcastChannel).  We embed the store state as association
lists keyed by String, listeners as numeric identifiers, and each
operation as a pure function returning a result, the next state, and the
ordered list of observable side effects it performed.  Fallible external
collaborators (the persistent store and the broadcast transport) are
modelled by boolean oracles saying whether the corresponding call
succeeds; a JS exception escaping an async function is modelled by the
operation returning an error result.
-/

namespace MfeStore

/-- Tag of a BroadcastMessage: the TS union of the string literals
set, delete and clear. -/
inductive MsgType where
  | set
  | delete
  | clear
deriving DecidableEq, Repr

/-- BroadcastMessage from store.ts: a type tag plus optional key, value and
oldValue fields (optional TS fields become Option). -/
structure BMsg (V : Type) where
  type : MsgType
  key : Option String := none
  value : Option V := none
  oldValue : Option V := none
deriving DecidableEq, Repr

/-- Observable side effects of one store operation, in program order.
invoke is one local listener callback, emit is one CustomEvent dispatch on
the local event bus, dbPut, dbGetHit, dbDelete and dbClear are persistent
store accesses, and post is one BroadcastChannel postMessage call. -/
inductive Effect (V : Type) where
  | invoke (key : String) (lid : Nat) (value : Option V) (oldValue : Option V)
  | emit (name : String) (value : Option V) (oldValue : Option V)
  | dbPut (key : String) (value : V)
  | dbGetHit (key : String)
  | dbDelete (key : String)
  | dbClear
  | post (msg : BMsg V)
deriving DecidableEq, Repr

/-- True exactly on broadcast transport posts. -/
def Effect.isPost {V : Type} : Effect V → Bool
  | .post _ => true
  | _ => false

/-- Errors an operation can surface to its caller: a validator throwing, a
persistent store rejection, or a broadcast transport throw. -/
inductive StoreError where
  | validation
  | persistence
  | transport
deriving DecidableEq, Repr

/-- JS Map lookup (Map.get): first entry with the key, if any. -/
def mapGet {V : Type} (m : List (String × V)) (k : String) : Option V :=
  match m with
  | [] => none
  | (k₀, v₀) :: rest => if k₀ == k then some v₀ else mapGet rest k

/-- JS Map.has. -/
def mapHas {V : Type} (m : List (String × V)) (k : String) : Bool :=
  (mapGet m k).isSome

/-- JS Map.set: replace the entry in place if the key is present, else
append at the end (Map preserves insertion order). -/
def mapSet {V : Type} (m : List (String × V)) (k : String) (v : V) :
    List (String × V) :=
  match m with
  | [] => [(k, v)]
  | (k₀, v₀) :: rest =>
      if k₀ == k then (k₀, v) :: rest else (k₀, v₀) :: mapSet rest k v

/-- JS Map.delete: remove every entry with the key. -/
def mapDelete {V : Type} (m : List (String × V)) (k : String) :
    List (String × V) :=
  match m with
  | [] => []
  | (k₀, v₀) :: rest =>
      if k₀ == k then mapDelete rest k else (k₀, v₀) :: mapDelete rest k

/-- Store configuration: the channel name and the per-key validator table
from StoreOptions.  A TS validator signals rejection by throwing, so it is
embedded as a predicate returning true exactly when it does not throw. -/
structure Config (V : Type) where
  channelName : String
  validators : String → Option (V → Bool)

/-- Mutable state owned by one store engine instance: the in-memory cache,
the contents of the persistent store (IndexedDB object store), and the
subscription registry mapping each key to its ordered set of listener
identifiers (a JS Set iterates in insertion order and holds no
duplicates). -/
structure StoreState (V : Type) where
  cache : List (String × V)
  db : List (String × V)
  listeners : List (String × List Nat)
deriving DecidableEq, Repr

/-- Event name derived from the channel name and key, from
createEventName in store.ts. -/
def createEventName (channelName key : String) : String :=
  "store:" ++ channelName ++ ":" ++ key

/-- notifyListeners from store.ts: invoke every listener registered for
the key, then dispatch one CustomEvent on the local event bus.  Returns
the effect trace of that fan-out. -/
def notifyListeners {V : Type} (cfg : Config V) (st : StoreState V)
    (key : String) (value oldValue : Option V) : List (Effect V) :=
  (((mapGet st.listeners key).getD []).map
      (fun lid => Effect.invoke key lid value oldValue))
    ++ [Effect.emit (createEventName cfg.channelName key) value oldValue]

/-- True when the validator registered for the key accepts the value, or
when no validator is registered (store.ts only calls the validator when
the lookup is defined). -/
def validatorAccepts {V : Type} (cfg : Config V) (key : String) (v : V) :
    Bool :=
  match cfg.validators key with
  | some f => f v
  | none => true

instance {ε α : Type} [DecidableEq ε] [DecidableEq α] :
    DecidableEq (Except ε α) := fun a b =>
  match a, b with
  | Except.ok x, Except.ok y =>
      if h : x = y then isTrue (by rw [h]) else
        isFalse (fun hc => h (by injection hc))
  | Except.ok _, Except.error _ => isFalse (fun hc => Except.noConfusion hc)
  | Except.error _, Except.ok _ => isFalse (fun hc => Except.noConfusion hc)
  | Except.error x, Except.error y =>
      if h : x = y then isTrue (by rw [h]) else
        isFalse (fun hc => h (by injection hc))

/-- Result of one fallible store operation: the outcome surfaced to the
caller, the state left behind, and the ordered effect trace. -/
structure OpResult (V : Type) where
  result : Except StoreError Unit
  state : StoreState V
  effects : List (Effect V)
deriving DecidableEq, Repr

/-- The set operation from store.ts.  Steps in source order: run the
validator (throw aborts everything), read the cached oldValue, write the
cache, persist to IndexedDB (dbOk says whether that succeeds; on failure
the rejection propagates with the cache already advanced), notify local
listeners and the event bus, and finally post a broadcast message (postOk
says whether postMessage throws; an uncaught throw rejects the returned
promise after the earlier effects happened). -/
def set {V : Type} (cfg : Config V) (st : StoreState V) (key : String)
    (value : V) (dbOk postOk : Bool) : OpResult V :=
  if validatorAccepts cfg key value then
    let oldValue := mapGet st.cache key
    let st₁ : StoreState V := { st with cache := mapSet st.cache key value }
    if dbOk then
      let st₂ : StoreState V := { st₁ with db := mapSet st₁.db key value }
      let effs := Effect.dbPut key value ::
        notifyListeners cfg st₂ key (some value) oldValue
      if postOk then
        ⟨Except.ok (), st₂,
          effs ++ [Effect.post ⟨MsgType.set, some key, some value, oldValue⟩]⟩
      else
        ⟨Except.error StoreError.transport, st₂, effs⟩
    else
      ⟨Except.error StoreError.persistence, st₁, []⟩
  else
    ⟨Except.error StoreError.validation, st, []⟩

/-- The get operation from store.ts: serve from the cache when the key is
cached (no storage access); otherwise read IndexedDB (dbOk says whether
the connection and read succeed), hydrate the cache on a defined result,
and return the value. -/
def get {V : Type} (st : StoreState V) (key : String) (dbOk : Bool) :
    Except StoreError (Option V) × StoreState V × List (Effect V) :=
  if mapHas st.cache key then
    (Except.ok (mapGet st.cache key), st, [])
  else if dbOk then
    match mapGet st.db key with
    | some v =>
        (Except.ok (some v), { st with cache := mapSet st.cache key v },
          [Effect.dbGetHit key])
    | none => (Except.ok none, st, [Effect.dbGetHit key])
  else
    (Except.error StoreError.persistence, st, [])

/-- The delete operation (del in store.ts): read the cached oldValue,
remove the key from the cache, delete from IndexedDB, notify with
(undefined, oldValue) and post a delete broadcast message. -/
def del {V : Type} (cfg : Config V) (st : StoreState V) (key : String)
    (dbOk postOk : Bool) : OpResult V :=
  let oldValue := mapGet st.cache key
  let st₁ : StoreState V := { st with cache := mapDelete st.cache key }
  if dbOk then
    let st₂ : StoreState V := { st₁ with db := mapDelete st₁.db key }
    let effs := Effect.dbDelete key ::
      notifyListeners cfg st₂ key none oldValue
    if postOk then
      ⟨Except.ok (), st₂,
        effs ++ [Effect.post ⟨MsgType.delete, some key, none, oldValue⟩]⟩
    else
      ⟨Except.error StoreError.transport, st₂, effs⟩
  else
    ⟨Except.error StoreError.persistence, st₁, []⟩

/-- The clear operation from store.ts: empty the cache, clear IndexedDB,
notify every key present in the subscription registry with
(undefined, undefined), and post a clear broadcast message. -/
def clear {V : Type} (cfg : Config V) (st : StoreState V)
    (dbOk postOk : Bool) : OpResult V :=
  let st₁ : StoreState V := { st with cache := [] }
  if dbOk then
    let st₂ : StoreState V := { st₁ with db := [] }
    let effs := Effect.dbClear ::
      (st₂.listeners.map Prod.fst).flatMap
        (fun k => notifyListeners cfg st₂ k none none)
    if postOk then
      ⟨Except.ok (), st₂,
        effs ++ [Effect.post ⟨MsgType.clear, none, none, none⟩]⟩
    else
      ⟨Except.error StoreError.transport, st₂, effs⟩
  else
    ⟨Except.error StoreError.persistence, st₁, []⟩

/-- The channel.onmessage handler from store.ts, applied to one inbound
broadcast message.  A set message needs both key and value defined, a
delete message needs the key defined — otherwise nothing happens.  The
delete branch reads the old value from the local cache (the oldValue
field of the message is not used there), and no branch posts on the
transport or touches the persistent store. -/
def handleMessage {V : Type} (cfg : Config V) (st : StoreState V)
    (msg : BMsg V) : StoreState V × List (Effect V) :=
  if msg.type = MsgType.set then
    match msg.key, msg.value with
    | some k, some v =>
        let st₁ : StoreState V := { st with cache := mapSet st.cache k v }
        (st₁, notifyListeners cfg st₁ k (some v) msg.oldValue)
    | _, _ => (st, [])
  else if msg.type = MsgType.delete then
    match msg.key with
    | some k =>
        let old := mapGet st.cache k
        let st₁ : StoreState V := { st with cache := mapDelete st.cache k }
        (st₁, notifyListeners cfg st₁ k none old)
    | none => (st, [])
  else
    let st₁ : StoreState V := { st with cache := [] }
    (st₁, (st₁.listeners.map Prod.fst).flatMap
      (fun k => notifyListeners cfg st₁ k none none))

/-- The subscribe operation from store.ts restricted to its state change:
ensure a listener set exists for the key and add the listener to it (a JS
Set appends a new element and ignores a duplicate). -/
def subscribe {V : Type} (st : StoreState V) (key : String) (lid : Nat) :
    StoreState V :=
  let cur := (mapGet st.listeners key).getD []
  { st with listeners :=
      mapSet st.listeners key (if lid ∈ cur then cur else cur ++ [lid]) }

/-- The unsubscribe closure returned by subscribe in store.ts: if the key
still has a listener set, remove this listener from it, and drop the key
entry entirely when the set becomes empty. -/
def unsubscribe {V : Type} (st : StoreState V) (key : String) (lid : Nat) :
    StoreState V :=
  match mapGet st.listeners key with
  | none => st
  | some lids =>
      let lids₁ := lids.erase lid
      if lids₁ = [] then
        { st with listeners := mapDelete st.listeners key }
      else
        { st with listeners := mapSet st.listeners key lids₁ }

/-- True when the listener identifier is registered for the key. -/
def isSubscribed {V : Type} (st : StoreState V) (key : String) (lid : Nat) :
    Bool :=
  ((mapGet st.listeners key).getD []).contains lid

theorem mapGet_mapSet_self {V : Type} (m : List (String × V)) (k : String)
    (v : V) : mapGet (mapSet m k v) k = some v := by
  induction m with
  | nil => simp [mapSet, mapGet]
  | cons p rest ih =>
      obtain ⟨k₀, v₀⟩ := p
      by_cases h : k₀ = k
      · simp [mapSet, mapGet, h]
      · simp [mapSet, mapGet, h, ih]

theorem mapGet_mapSet_ne {V : Type} (m : List (String × V)) {k k₁ : String}
    (v : V) (h : k₁ ≠ k) : mapGet (mapSet m k v) k₁ = mapGet m k₁ := by
  induction m with
  | nil => simp [mapSet, mapGet, Ne.symm h]
  | cons p rest ih =>
      obtain ⟨k₀, v₀⟩ := p
      by_cases h₀ : k₀ = k
      · subst h₀
        simp [mapSet, mapGet, Ne.symm h]
      · by_cases h₁ : k₀ = k₁ <;> simp [mapSet, mapGet, h₀, h₁, h, ih]

theorem mapGet_mapDelete_self {V : Type} (m : List (String × V))
    (k : String) : mapGet (mapDelete m k) k = none := by
  induction m with
  | nil => simp [mapDelete, mapGet]
  | cons p rest ih =>
      obtain ⟨k₀, v₀⟩ := p
      by_cases h : k₀ = k
      · simp [mapDelete, h, ih]
      · simp [mapDelete, mapGet, h, ih]

theorem mapGet_mapDelete_ne {V : Type} (m : List (String × V))
    {k k₁ : String} (h : k₁ ≠ k) :
    mapGet (mapDelete m k) k₁ = mapGet m k₁ := by
  induction m with
  | nil => simp [mapDelete]
  | cons p rest ih =>
      obtain ⟨k₀, v₀⟩ := p
      by_cases h₀ : k₀ = k
      · subst h₀
        simp [mapDelete, mapGet, Ne.symm h, ih]
      · by_cases h₁ : k₀ = k₁ <;> simp [mapDelete, mapGet, h₀, h₁, h, ih]

theorem mapSet_mapSet_self {V : Type} (m : List (String × V)) (k : String)
    (v : V) : mapSet (mapSet m k v) k v = mapSet m k v := by
  induction m with
  | nil => simp [mapSet]
  | cons p rest ih =>
      obtain ⟨k₀, v₀⟩ := p
      by_cases h : k₀ = k
      · simp [mapSet, h]
      · simp [mapSet, h, ih]

theorem mapHas_mapSet_self {V : Type} (m : List (String × V)) (k : String)
    (v : V) : mapHas (mapSet m k v) k = true := by
  simp [mapHas, mapGet_mapSet_self]

/-- Every effect produced by the notification fan-out is a listener
invocation or a local event bus emission, never a transport post. -/
theorem notifyListeners_no_post {V : Type} (cfg : Config V)
    (st : StoreState V) (key : String) (value oldValue : Option V) :
    ∀ e ∈ notifyListeners cfg st key value oldValue,
      Effect.isPost e = false := by
  intro e he
  simp only [notifyListeners, List.mem_append, List.mem_map,
    List.mem_singleton] at he
  rcases he with ⟨lid, _, rfl⟩ | rfl <;> rfl

theorem erase_eq_nil_cases {l : List Nat} {a : Nat} (h : l.erase a = []) :
    l = [] ∨ l = [a] := by
  cases l with
  | nil => exact Or.inl rfl
  | cons b t =>
      by_cases hb : b = a
      · subst hb
        rw [List.erase_cons_head] at h
        exact Or.inr (by rw [h])
      · rw [List.erase_cons_tail (by simpa using hb)] at h
        exact absurd h (by simp)

/-- Concrete store fixture over Nat values used by witnesses: one
validator on the key age, a cached and persisted entry for k, and
listeners registered for k and j. -/
def cfgN : Config Nat :=
  ⟨"chan", fun k => if k = "age" then some (fun v => decide (v ≤ 150)) else none⟩

/-- Concrete state fixture matching cfgN. -/
def stN : StoreState Nat :=
  ⟨[("k", 5)], [("k", 5)], [("k", [0]), ("j", [1, 2])]⟩

/-- C1: a write rejected by the validator registered for its key fails
with ValidationError and has no side effect at all: the whole operation
result is the error, the unchanged state, and an empty effect trace (no
cache mutation, no persistent store write, no listener invocation, no
local event bus emission, no broadcast post), and a subsequent get of the
key behaves exactly as before the call. -/
theorem set_validation_failure_no_side_effects {V : Type} (cfg : Config V)
    (st : StoreState V) (key : String) (v : V) (dbOk postOk : Bool)
    (h : validatorAccepts cfg key v = false) :
    set cfg st key v dbOk postOk =
      ⟨Except.error StoreError.validation, st, []⟩ ∧
    ∀ b : Bool, get (set cfg st key v dbOk postOk).state key b =
      get st key b := by
  refine ⟨by simp [set, h], fun b => by simp [set, h]⟩

/-- Witness for C1: the age validator of the fixture rejects 200, and the
conclusion holds there. -/
theorem set_validation_failure_no_side_effects_witness :
    validatorAccepts cfgN "age" 200 = false ∧
    (set cfgN stN "age" 200 true true =
        ⟨Except.error StoreError.validation, stN, []⟩ ∧
      ∀ b : Bool, get (set cfgN stN "age" 200 true true).state "age" b =
        get stN "age" b) :=
  ⟨by decide,
    set_validation_failure_no_side_effects cfgN stN "age" 200 true true
      (by decide)⟩

/-- C2: a successful set produces the effect trace consisting of the
persistent store put, then exactly one invocation per listener registered
for the key, then exactly one local event bus emission under the name
derived from the channel name and key, then exactly one broadcast post of
a set message carrying the key, the value and the prior cached value — in
that order and nothing else. -/
theorem set_success_notification_order {V : Type} (cfg : Config V)
    (st : StoreState V) (key : String) (v : V)
    (h : validatorAccepts cfg key v = true) :
    (set cfg st key v true true).result = Except.ok () ∧
    (set cfg st key v true true).effects =
      Effect.dbPut key v ::
        ((((mapGet st.listeners key).getD []).map
            (fun lid => Effect.invoke key lid (some v) (mapGet st.cache key)))
          ++ [Effect.emit (createEventName cfg.channelName key) (some v)
                (mapGet st.cache key),
              Effect.post ⟨MsgType.set, some key, some v,
                mapGet st.cache key⟩]) := by
  refine ⟨by simp [set, h], ?_⟩
  simp [set, h, notifyListeners]

/-- Witness for C2: the fixture validator table has no validator for k,
and the successful write of 7 to k produces exactly the stated trace. -/
theorem set_success_notification_order_witness :
    validatorAccepts cfgN "k" 7 = true ∧
    ((set cfgN stN "k" 7 true true).result = Except.ok () ∧
      (set cfgN stN "k" 7 true true).effects =
        Effect.dbPut "k" 7 ::
          ((((mapGet stN.listeners "k").getD []).map
              (fun lid => Effect.invoke "k" lid (some 7)
                (mapGet stN.cache "k")))
            ++ [Effect.emit (createEventName cfgN.channelName "k") (some 7)
                  (mapGet stN.cache "k"),
                Effect.post ⟨MsgType.set, some "k", some 7,
                  mapGet stN.cache "k"⟩])) :=
  ⟨by decide, set_success_notification_order cfgN stN "k" 7 (by decide)⟩

/-- Counterexample for C3: the fixture caches 5 under k, yet a delete
message carrying oldValue 7 makes the handler notify with old value 5 —
the value from the local cache — not with the 7 carried in the message,
so the claimed trace is not produced while the cached-old trace is. -/
theorem handleMessage_delete_message_oldValue_cex :
    (handleMessage cfgN stN ⟨MsgType.delete, some "k", none, some 7⟩).2 ≠
      [Effect.invoke "k" 0 none (some 7),
       Effect.emit (createEventName "chan" "k") none (some 7)] ∧
    (handleMessage cfgN stN ⟨MsgType.delete, some "k", none, some 7⟩).2 =
      [Effect.invoke "k" 0 none (some 5),
       Effect.emit (createEventName "chan" "k") none (some 5)] := by
  decide

/-- C3 (amended): on an inbound delete message the engine removes the key
from its cache and notifies local listeners and the local event bus with
(undefined, old) where old is the value the receiving engine itself had
cached for the key; the oldValue field carried in the message is ignored
by the delete branch. -/
theorem handleMessage_delete_uses_cached_old {V : Type} (cfg : Config V)
    (st : StoreState V) (k : String) (mVal mOld : Option V) :
    (handleMessage cfg st ⟨MsgType.delete, some k, mVal, mOld⟩).1 =
      { st with cache := mapDelete st.cache k } ∧
    mapGet (handleMessage cfg st
        ⟨MsgType.delete, some k, mVal, mOld⟩).1.cache k = none ∧
    (handleMessage cfg st ⟨MsgType.delete, some k, mVal, mOld⟩).2 =
      (((mapGet st.listeners k).getD []).map
          (fun lid => Effect.invoke k lid none (mapGet st.cache k)))
        ++ [Effect.emit (createEventName cfg.channelName k) none
              (mapGet st.cache k)] := by
  refine ⟨?_, ?_, ?_⟩ <;>
    simp [handleMessage, notifyListeners, mapGet_mapDelete_self]

/-- C4: when the persistent store write inside set fails, the call
surfaces PersistenceError, the state shows the cache already advanced to
the new value while the persistent store is untouched, no notification or
broadcast effect was produced, and a subsequent get of the key serves the
new value from the cache whatever the persistent store oracle says. -/
theorem set_persistence_failure_keeps_cache {V : Type} (cfg : Config V)
    (st : StoreState V) (key : String) (v : V) (postOk : Bool)
    (h : validatorAccepts cfg key v = true) :
    (set cfg st key v false postOk).result =
      Except.error StoreError.persistence ∧
    (set cfg st key v false postOk).state =
      { st with cache := mapSet st.cache key v } ∧
    (set cfg st key v false postOk).effects = [] ∧
    ∀ b : Bool, get (set cfg st key v false postOk).state key b =
      (Except.ok (some v), (set cfg st key v false postOk).state, []) := by
  refine ⟨by simp [set, h], by simp [set, h], by simp [set, h], fun b => ?_⟩
  simp [set, h, get, mapHas, mapGet_mapSet_self]

/-- Witness for C4: writing 7 to k with a failing persistent store leaves
7 in the cache and get serves it. -/
theorem set_persistence_failure_keeps_cache_witness :
    validatorAccepts cfgN "k" 7 = true ∧
    ((set cfgN stN "k" 7 false true).result =
        Except.error StoreError.persistence ∧
      (set cfgN stN "k" 7 false true).state =
        { stN with cache := mapSet stN.cache "k" 7 } ∧
      (set cfgN stN "k" 7 false true).effects = [] ∧
      ∀ b : Bool, get (set cfgN stN "k" 7 false true).state "k" b =
        (Except.ok (some 7), (set cfgN stN "k" 7 false true).state, [])) :=
  ⟨by decide, set_persistence_failure_keeps_cache cfgN stN "k" 7 true
    (by decide)⟩

/-- Counterexample for C5: with every earlier step succeeding and only the
broadcast post failing, none of set, delete and clear succeeds — the
postMessage throw is not caught, so the rejection reaches the caller. -/
theorem transport_failure_fails_call_cex :
    (set cfgN stN "k" 7 true false).result ≠ Except.ok () ∧
    (del cfgN stN "k" true false).result ≠ Except.ok () ∧
    (clear cfgN stN true false).result ≠ Except.ok () := by
  decide

/-- C5 (amended): a broadcast transport failure is surfaced to the caller:
when validation, cache update, persistence and notification all succeed
and the final post throws, the set, delete and clear calls each fail with
TransportError (the source wraps postMessage in no handler, so the throw
rejects the returned promise). -/
theorem transport_failure_propagates {V : Type} (cfg : Config V)
    (st : StoreState V) (key : String) (v : V)
    (h : validatorAccepts cfg key v = true) :
    (set cfg st key v true false).result =
      Except.error StoreError.transport ∧
    (del cfg st key true false).result =
      Except.error StoreError.transport ∧
    (clear cfg st true false).result =
      Except.error StoreError.transport := by
  refine ⟨?_, ?_, ?_⟩ <;> simp [set, del, clear, h]

/-- Witness for C5 (amended): concrete failing posts for all three
operations on the fixture. -/
theorem transport_failure_propagates_witness :
    validatorAccepts cfgN "k" 7 = true ∧
    ((set cfgN stN "k" 7 true false).result =
        Except.error StoreError.transport ∧
      (del cfgN stN "k" true false).result =
        Except.error StoreError.transport ∧
      (clear cfgN stN true false).result =
        Except.error StoreError.transport) :=
  ⟨by decide, transport_failure_propagates cfgN stN "k" 7 (by decide)⟩

/-- C6: handling an inbound broadcast message — whatever its type and
fields and whatever the receiving state — produces an effect trace with no
broadcast transport post in it, so a receiver never re-broadcasts; and for
each well-formed message type the handler updates the cache and performs
the local-listener and local event bus notification fan-out: a set message
writes the cache and notifies, a delete message removes the key and
notifies, a clear message empties the cache and notifies every registered
key. -/
theorem handleMessage_never_posts {V : Type} (cfg : Config V)
    (st : StoreState V) :
    (∀ msg : BMsg V,
      (handleMessage cfg st msg).2.all (fun e => !(Effect.isPost e)) = true) ∧
    (∀ k v mo,
      handleMessage cfg st ⟨MsgType.set, some k, some v, mo⟩ =
        ({ st with cache := mapSet st.cache k v },
          notifyListeners cfg { st with cache := mapSet st.cache k v } k
            (some v) mo)) ∧
    (∀ k mv mo,
      handleMessage cfg st ⟨MsgType.delete, some k, mv, mo⟩ =
        ({ st with cache := mapDelete st.cache k },
          notifyListeners cfg { st with cache := mapDelete st.cache k } k
            none (mapGet st.cache k))) ∧
    (∀ mk mv mo,
      handleMessage cfg st ⟨MsgType.clear, mk, mv, mo⟩ =
        ({ st with cache := [] },
          (st.listeners.map Prod.fst).flatMap
            (fun k =>
              notifyListeners cfg { st with cache := [] } k none none))) := by
  refine ⟨fun msg => ?_, fun k v mo => by simp [handleMessage],
    fun k mv mo => by simp [handleMessage],
    fun mk mv mo => by simp [handleMessage]⟩
  rw [List.all_eq_true]
  intro e he
  rw [Bool.not_eq_true']
  obtain ⟨t, mk, mv, mo⟩ := msg
  cases t with
  | set =>
      cases mk with
      | none => simp [handleMessage] at he
      | some k =>
          cases mv with
          | none => simp [handleMessage] at he
          | some v =>
              simp only [handleMessage, if_pos rfl] at he
              exact notifyListeners_no_post cfg _ k (some v) mo e he
  | delete =>
      cases mk with
      | none => simp [handleMessage] at he
      | some k =>
          simp only [handleMessage, reduceCtorEq, if_neg, if_pos rfl] at he
          exact notifyListeners_no_post cfg _ k none _ e he
  | clear =>
      simp only [handleMessage, reduceCtorEq, if_false, List.mem_flatMap] at he
      obtain ⟨k, _, hk⟩ := he
      exact notifyListeners_no_post cfg _ k none none e hk

/-- C7: a successful clear empties the cache and the persistent store,
leaves the subscription registry as it was, notifies — in registry order —
exactly the keys present in the subscription registry, each with
(undefined, undefined) regardless of prior values, and posts exactly one
clear broadcast message at the end of the trace. -/
theorem clear_success_effects {V : Type} (cfg : Config V)
    (st : StoreState V) :
    clear cfg st true true =
      ⟨Except.ok (), { st with cache := [], db := [] },
        (Effect.dbClear ::
          ((st.listeners.map Prod.fst).flatMap
            (fun k => (((mapGet st.listeners k).getD []).map
                (fun lid => Effect.invoke k lid none none))
              ++ [Effect.emit (createEventName cfg.channelName k) none none])))
          ++ [Effect.post ⟨MsgType.clear, none, none, none⟩]⟩ := by
  simp [clear, notifyListeners]

/-- C8: if no validator is registered for the key and the set call
succeeds, a subsequent get of the key in the same context returns the
written value served from the cache with an empty effect trace — the
persistent store is not touched by that read. -/
theorem set_then_get_returns_value {V : Type} (cfg : Config V)
    (st : StoreState V) (key : String) (v : V) (dbOk postOk : Bool)
    (hval : cfg.validators key = none)
    (hok : (set cfg st key v dbOk postOk).result = Except.ok ()) :
    ∀ b : Bool, get (set cfg st key v dbOk postOk).state key b =
      (Except.ok (some v), (set cfg st key v dbOk postOk).state, []) := by
  have hacc : validatorAccepts cfg key v = true := by
    simp [validatorAccepts, hval]
  cases dbOk with
  | false => simp [set, hacc] at hok
  | true =>
      cases postOk with
      | false => simp [set, hacc] at hok
      | true =>
          intro b
          simp [set, hacc, get, mapHas, mapGet_mapSet_self]

/-- Witness for C8: no validator is registered for k, the write of 7
succeeds, and get then serves 7 from the cache with no storage access. -/
theorem set_then_get_returns_value_witness :
    cfgN.validators "k" = none ∧
    (set cfgN stN "k" 7 true true).result = Except.ok () ∧
    ∀ b : Bool, get (set cfgN stN "k" 7 true true).state "k" b =
      (Except.ok (some 7), (set cfgN stN "k" 7 true true).state, []) :=
  ⟨by simp [cfgN], by decide,
    set_then_get_returns_value cfgN stN "k" 7 true true (by simp [cfgN])
      (by decide)⟩

/-- C10: an inbound broadcast set message whose key field or value field
is undefined is ignored entirely: the handler leaves the state untouched
and produces no effect at all, so a cross-context write of undefined is
never applied at a receiver. -/
theorem handleMessage_ignores_undefined_set {V : Type} (cfg : Config V)
    (st : StoreState V) (msg : BMsg V) (htype : msg.type = MsgType.set)
    (h : msg.key = none ∨ msg.value = none) :
    handleMessage cfg st msg = (st, []) := by
  obtain ⟨t, mk, mv, mo⟩ := msg
  simp only at htype
  subst htype
  rcases h with h | h <;> simp only at h <;> subst h
  · simp [handleMessage]
  · cases mk with
    | none => simp [handleMessage]
    | some k => simp [handleMessage]

/-- Witness for C10: a set message with a defined key but undefined value
is dropped on the fixture state. -/
theorem handleMessage_ignores_undefined_set_witness :
    (⟨MsgType.set, some "k", none, some 9⟩ : BMsg Nat).type = MsgType.set ∧
    ((⟨MsgType.set, some "k", none, some 9⟩ : BMsg Nat).key = none ∨
      (⟨MsgType.set, some "k", none, some 9⟩ : BMsg Nat).value = none) ∧
    handleMessage cfgN stN ⟨MsgType.set, some "k", none, some 9⟩ =
      (stN, []) :=
  ⟨rfl, Or.inr rfl,
    handleMessage_ignores_undefined_set cfgN stN
      ⟨MsgType.set, some "k", none, some 9⟩ rfl (Or.inr rfl)⟩

theorem contains_iff_mem {l : List Nat} {a : Nat} :
    l.contains a = true ↔ a ∈ l :=
  List.elem_iff

theorem contains_eq_false_of_not_mem {l : List Nat} {a : Nat} (h : a ∉ l) :
    l.contains a = false := by
  rw [← Bool.not_eq_true]
  exact fun hc => h (contains_iff_mem.mp hc)

/-- C9: unsubscribing a listener removes exactly that listener — it is no
longer registered, and every other (key, listener) registration is
untouched — the key entry is dropped from the registry when removing the
listener leaves its set empty, and the operation is idempotent: running
it a second time changes nothing.  The hypothesis records the JS Set
invariant that a listener set holds no duplicates. -/
theorem unsubscribe_removes_exactly_and_idempotent {V : Type}
    (st : StoreState V) (key : String) (lid : Nat)
    (hnd : ((mapGet st.listeners key).getD []).Nodup) :
    isSubscribed (unsubscribe st key lid) key lid = false ∧
    (∀ k₁ lid₁, k₁ ≠ key ∨ lid₁ ≠ lid →
      isSubscribed (unsubscribe st key lid) k₁ lid₁ =
        isSubscribed st k₁ lid₁) ∧
    (∀ lids, mapGet st.listeners key = some lids → lids.erase lid = [] →
      mapGet (unsubscribe st key lid).listeners key = none) ∧
    unsubscribe (unsubscribe st key lid) key lid = unsubscribe st key lid := by
  cases hL : mapGet st.listeners key with
  | none =>
      refine ⟨?_, ?_, ?_, ?_⟩
      · simp [isSubscribed, unsubscribe, hL]
      · intro k₁ lid₁ _
        simp [unsubscribe, hL]
      · intro lids hlids
        exact absurd hlids (by simp)
      · simp [unsubscribe, hL]
  | some lids =>
      rw [hL] at hnd
      simp only [Option.getD_some] at hnd
      by_cases he : lids.erase lid = []
      · have hun : unsubscribe st key lid =
            { st with listeners := mapDelete st.listeners key } := by
          simp [unsubscribe, hL, he]
        refine ⟨?_, ?_, ?_, ?_⟩
        · simp [isSubscribed, hun, mapGet_mapDelete_self]
        · intro k₁ lid₁ hne
          by_cases hk : k₁ = key
          · subst hk
            have hl : lid₁ ≠ lid := by
              rcases hne with hk | hl
              · exact absurd rfl hk
              · exact hl
            have hrhs : isSubscribed st k₁ lid₁ = false := by
              rcases erase_eq_nil_cases he with h0 | h0 <;>
                simp [isSubscribed, hL, h0, contains_eq_false_of_not_mem,
                  List.mem_singleton, hl]
            rw [hrhs]
            simp [isSubscribed, hun, mapGet_mapDelete_self]
          · simp [isSubscribed, hun, mapGet_mapDelete_ne _ hk]
        · intro lids₁ hlids _
          simp [hun, mapGet_mapDelete_self]
        · rw [hun]
          simp [unsubscribe, mapGet_mapDelete_self]
      · have hun : unsubscribe st key lid =
            { st with listeners := mapSet st.listeners key (lids.erase lid) } := by
          simp [unsubscribe, hL, he]
        have hnotmem : lid ∉ lids.erase lid := by
          intro hc
          exact absurd ((hnd.mem_erase_iff.mp hc)).1 (by simp)
        refine ⟨?_, ?_, ?_, ?_⟩
        · rw [hun]
          simp only [isSubscribed, mapGet_mapSet_self, Option.getD_some]
          exact contains_eq_false_of_not_mem hnotmem
        · intro k₁ lid₁ hne
          by_cases hk : k₁ = key
          · subst hk
            have hl : lid₁ ≠ lid := by
              rcases hne with hk | hl
              · exact absurd rfl hk
              · exact hl
            rw [hun]
            have hmem : lid₁ ∈ lids.erase lid ↔ lid₁ ∈ lids :=
              List.mem_erase_of_ne hl
            simp only [isSubscribed, mapGet_mapSet_self, hL, Option.getD_some]
            rw [Bool.eq_iff_iff, contains_iff_mem, contains_iff_mem]
            exact hmem
          · rw [hun]
            simp [isSubscribed, mapGet_mapSet_ne _ _ hk]
        · intro lids₁ hlids hcontra
          injection hlids with hh
          subst hh
          exact absurd hcontra he
        · rw [hun]
          simp only [unsubscribe, mapGet_mapSet_self]
          rw [List.erase_of_not_mem hnotmem]
          simp only [he, if_false]
          rw [mapSet_mapSet_self]

/-- Witness for C9: removing listener 1 from key j of the fixture, whose
listener list [1, 2] has no duplicates. -/
theorem unsubscribe_removes_exactly_and_idempotent_witness :
    ((mapGet stN.listeners "j").getD []).Nodup ∧
    (isSubscribed (unsubscribe stN "j" 1) "j" 1 = false ∧
      (∀ k₁ lid₁, k₁ ≠ "j" ∨ lid₁ ≠ 1 →
        isSubscribed (unsubscribe stN "j" 1) k₁ lid₁ =
          isSubscribed stN k₁ lid₁) ∧
      (∀ lids, mapGet stN.listeners "j" = some lids → lids.erase 1 = [] →
        mapGet (unsubscribe stN "j" 1).listeners "j" = none) ∧
      unsubscribe (unsubscribe stN "j" 1) "j" 1 = unsubscribe stN "j" 1) :=
  ⟨by decide,
    unsubscribe_removes_exactly_and_idempotent stN "j" 1 (by decide)⟩

end MfeStore
